import Mathlib

/-!
A shallow embedding of the feed-to-speech pipeline of the rss-to-podcast
repository (package `worker` in `main.go`), with proofs about its
feed-to-queue producer, dedup gate, retry loop, chunk accumulation and
output finalizer.

Modelling conventions.  Go `int` counters are modelled as `Nat`, byte
values as `Nat`, wall-clock instants and
durations (in hours) as `Int`: the modelled code only compares, copies
and subtracts timestamps, so an ordered additive group of time values
suffices, and integer sample points keep every theorem kernel-checkable
(speaking rates, which are never computed with, stay `ℚ`).
External collaborators — feed parsing, text chunking
(`rss.GetSynthesizeSpeechRequests`), HTML stripping, the TTS backends,
the filesystem and the clock — enter as explicit oracle parameters, so a
run of a worker is a pure function of them.  A worker records its side
effects (file writes with their permission argument, ID3 tagging calls,
`Chtimes` calls, and the one-second retry sleeps) in an `Effects` value.
-/

namespace Rss2Pod

/-- UTF-8 encoding of one character, as Go produces for `[]byte(s)`. -/
def charUtf8 (c : Char) : List Nat :=
  let n := c.toNat
  if n < 0x80 then [n]
  else if n < 0x800 then [0xC0 ||| (n >>> 6), 0x80 ||| (n &&& 0x3F)]
  else if n < 0x10000 then
    [0xE0 ||| (n >>> 12), 0x80 ||| ((n >>> 6) &&& 0x3F), 0x80 ||| (n &&& 0x3F)]
  else
    [0xF0 ||| (n >>> 18), 0x80 ||| ((n >>> 12) &&& 0x3F),
      0x80 ||| ((n >>> 6) &&& 0x3F), 0x80 ||| (n &&& 0x3F)]

/-- Go `[]byte(s)`: the UTF-8 bytes of a string. -/
def goBytes (s : String) : List Nat := (s.data.map charUtf8).flatten

/-- Lower-case hex digit for a value below 16 (as `encoding/hex` emits). -/
def hexDigit (n : Nat) : Char :=
  if n < 10 then Char.ofNat (48 + n) else Char.ofNat (87 + n)

/-- Two lower-case hex digits of one byte. -/
def hexByte (b : Nat) : List Char := [hexDigit (b / 16), hexDigit (b % 16)]

/-- Go `hex.EncodeToString`: lower-case hex encoding of a byte slice. -/
def hexEncode (bs : List Nat) : String := String.mk (bs.map hexByte).flatten

/-- The MD5 digest of the empty message,
`d41d8cd98f00b204e9800998ecf8427e`. -/
def md5EmptyDigest : List Nat :=
  [0xd4, 0x1d, 0x8c, 0xd9, 0x8f, 0x00, 0xb2, 0x04,
   0xe9, 0x80, 0x09, 0x98, 0xec, 0xf8, 0x42, 0x7e]

/-- Go `md5.New().Sum(b)` (main.go lines 309, 374).  In Go,
`hash.Hash.Sum(b)` appends the digest of the data *written to the hash so
far* to `b` and returns the result.  Nothing has been written to the
freshly constructed hash, so this expression evaluates to
`b ++ md5("")`; it does not hash `b` itself. -/
def goMd5NewSum (b : List Nat) : List Nat := b ++ md5EmptyDigest

/-- The item identifier computed by both worker variants (main.go lines
309–313 and 374–378): hex-encode `md5.New().Sum([]byte(title))` and keep
at most the first 50 characters. -/
def hashStringOf (title : String) : String :=
  let hashString := hexEncode (goMd5NewSum (goBytes title))
  if 50 < hashString.data.length then String.mk (hashString.data.take 50)
  else hashString

/-- Whether a path (as characters) is rooted, i.e. begins with a slash. -/
def headIsSlash : List Char → Bool
  | '/' :: _ => true
  | _ => false

/-- Split a character list on every slash (as `strings.Split(s, "/")`). -/
def splitOnSlash (acc : List Char) : List Char → List (List Char)
  | [] => [acc.reverse]
  | c :: rest =>
    if c = '/' then acc.reverse :: splitOnSlash [] rest
    else splitOnSlash (c :: acc) rest

/-- The component loop of Go `path/filepath.Clean` for unix paths: drop
empty and `.` components; `..` pops a previous component, is dropped at
the root, and is kept at the front of a relative path.  The accumulator
holds the already-emitted components in reverse order. -/
def cleanSeg (rooted : Bool) (acc : List (List Char)) :
    List (List Char) → List (List Char)
  | [] => acc.reverse
  | s :: rest =>
    if s = [] ∨ s = ['.'] then cleanSeg rooted acc rest
    else if s = ['.', '.'] then
      match acc with
      | [] => if rooted then cleanSeg rooted [] rest else cleanSeg rooted [s] rest
      | t :: acc2 =>
        if t = ['.', '.'] then cleanSeg rooted (s :: acc) rest
        else cleanSeg rooted acc2 rest
    else cleanSeg rooted (s :: acc) rest

/-- Join path components with slashes. -/
def intercalateSlash : List (List Char) → List Char
  | [] => []
  | [s] => s
  | s :: rest => s ++ '/' :: intercalateSlash rest

/-- Go `path/filepath.Clean` on unix. -/
def goPathClean (p : String) : String :=
  let rooted := headIsSlash p.data
  let comps := cleanSeg rooted [] (splitOnSlash [] p.data)
  if comps.isEmpty then (if rooted then "/" else ".")
  else String.mk ((if rooted then ['/'] else []) ++ intercalateSlash comps)

/-- Go `path/filepath.Abs(p)` given the process working directory `cwd`:
an absolute path is cleaned, a relative one is joined to `cwd` and
cleaned.  The code discards the error return. -/
def goFilepathAbs (cwd p : String) : String :=
  if headIsSlash p.data then goPathClean p
  else goPathClean (String.mk (cwd.data ++ '/' :: p.data))

/-- Go `strings.ReplaceAll(title, "/", "\\/")` (main.go lines 315, 380):
every slash in the title is replaced by a backslash followed by a slash. -/
def sanitizeTitle (title : String) : String :=
  String.mk ((title.data.map fun c =>
    if c = '/' then ['\\', '/'] else [c]).flatten)

/-- The artifact path of the remote (Google TTS) variant:
`filepath.Abs(directory + "/" + hashString + ".mp3")` (main.go line 379). -/
def remoteFilePath (cwd directory title : String) : String :=
  goFilepathAbs cwd (directory ++ "/" ++ hashStringOf title ++ ".mp3")

/-- The legacy path both variants test for dedup:
`filepath.Abs(strings.ReplaceAll(title, "/", "\\/") + ".mp3")` (main.go
lines 315, 380).  Note that the output directory does not appear: the
path is resolved against the process working directory. -/
def legacyFilePath (cwd title : String) : String :=
  goFilepathAbs cwd (sanitizeTitle title ++ ".mp3")

/-- The artifact path of the local (offline) variant:
`filepath.Abs(directory + "/" + hashString + ".wav")` (main.go line 314). -/
def offlineFilePath (cwd directory title : String) : String :=
  goFilepathAbs cwd (directory ++ "/" ++ hashStringOf title ++ ".wav")

/-- Go `strings.Contains(s, sub)`. -/
def goStringsContains (s sub : String) : Bool :=
  s.data.tails.any fun t => sub.data.isPrefixOf t

/-- Go `strings.ToLower` (the tags compared in this code are ASCII, where
per-character lowering agrees with Go's). -/
def goToLower (s : String) : String := String.mk (s.data.map Char.toLower)

/-- A feed item as handed over by the (external) feed parser.  The two
timestamps are `*time.Time` in Go: `none` models a nil pointer. -/
structure Item where
  title : String
  description : String
  content : String
  publishedParsed : Option Int
  updatedParsed : Option Int
deriving DecidableEq

/-- The configuration values the pipeline reads. -/
structure Config where
  maxItemPerFeed : Nat
  itemSince : Int
  useNaturalVoice : Bool
  speechSpeed : ℚ
deriving DecidableEq

/-- A parsed feed. -/
structure Feed where
  title : String
  language : String
  items : List Item
deriving DecidableEq

/-- The value passed through the work channel (main.go lines 219–234). -/
structure WorkerRequest where
  item : Item
  directory : String
  languageCode : String
  useNaturalVoice : Bool
  speechSpeed : ℚ
deriving DecidableEq

/-- Go `isInRange(itemPublishTime *time.Time, itemSince float64)`
(main.go lines 254–256): it dereferences the pointer unconditionally, so
a nil pointer makes the goroutine panic; the panic is modelled as an
error value.  `time.Since(t).Hours() <= itemSince` is `now - t ≤
itemSince` with times measured in hours (see the module comment on the
time type). -/
def isInRange (now : Int) (itemPublishTime : Option Int) (itemSince : Int) :
    Except String Bool :=
  match itemPublishTime with
  | none => .error "runtime error: invalid memory address or nil pointer dereference"
  | some t => .ok (decide (now - t ≤ itemSince))

/-- The anonymous size clamp in `CreateSpeechFromItems` (main.go lines
261–267): `if size > limit { return limit }; return size`. -/
def itemSizeOf (size limit : Nat) : Nat := if size > limit then limit else size

/-- The anonymous language normalizer in `CreateSpeechFromItems` (main.go
lines 269–275). -/
def feedLanguageOf (lang : String) : String :=
  if goStringsContains (goToLower lang) "zh" then "cmn-CN" else lang

/-- The request built for one enqueued item (main.go lines 282–288). -/
def mkWorkerRequest (cfg : Config) (feedLanguage directory : String)
    (it : Item) : WorkerRequest :=
  { item := it, directory := directory, languageCode := feedLanguage,
    useNaturalVoice := cfg.useNaturalVoice, speechSpeed := cfg.speechSpeed }

/-- The enqueue loop of `CreateSpeechFromItems` (main.go lines 277–291),
over the already-capped slice, threading the `itemCnt` counter.  The
channel send blocks but always delivers, so the enqueued requests are
collected as a list in loop order; a nil-pointer panic aborts the
producer and is surfaced as `.error`. -/
def createSpeechLoop (now itemSince : Int) (mk : Item → WorkerRequest)
    (itemSize : Nat) : List Item → Nat → Except String (List WorkerRequest)
  | [], _ => .ok []
  | it :: rest, itemCnt =>
    match isInRange now it.publishedParsed itemSince with
    | .error e => .error e
    | .ok inR =>
      if inR && decide (itemCnt < itemSize) then
        match createSpeechLoop now itemSince mk itemSize rest (itemCnt + 1) with
        | .error e => .error e
        | .ok l => .ok (mk it :: l)
      else
        createSpeechLoop now itemSince mk itemSize rest itemCnt

/-- Go `(w *WorkerGroup) CreateSpeechFromItems(feed, direcory)` (main.go
lines 258–292). -/
def CreateSpeechFromItems (now : Int) (cfg : Config) (feed : Feed)
    (directory : String) : Except String (List WorkerRequest) :=
  let itemSize := itemSizeOf feed.items.length cfg.maxItemPerFeed
  let feedLanguage := feedLanguageOf feed.language
  createSpeechLoop now cfg.itemSince (mkWorkerRequest cfg feedLanguage directory)
    itemSize (feed.items.take itemSize) 0

/-- Filesystem and clock oracle for one worker run: which paths
`os.Stat` finds, what `os.WriteFile` returns (`none` is success), and
what `os.Chtimes` returns. -/
structure FsEnv where
  fileExists : String → Bool
  writeFile : String → List Nat → Option String
  chtimesErr : String → Option String

/-- The externally visible side effects of a worker: one-second sleeps
taken by the retry loop, successful `os.WriteFile` calls (path, content,
permission argument — `none` for the offline library's own `Save`),
`tool.WriteID3Tag` calls (path, title, directory), and successful
`os.Chtimes` calls (path, time used for both atime and mtime). -/
structure Effects where
  sleeps : Nat
  writes : List (String × List Nat × Option Nat)
  id3 : List (String × String × String)
  chtimes : List (String × Int)
deriving DecidableEq

/-- No effects. -/
def Effects.empty : Effects := ⟨0, [], [], []⟩

/-- Sequencing of effects. -/
def Effects.append (a b : Effects) : Effects :=
  ⟨a.sleeps + b.sleeps, a.writes ++ b.writes, a.id3 ++ b.id3,
    a.chtimes ++ b.chtimes⟩

/-- What one iteration of the remote worker's receive loop does with an
item: skip it (`continue` after the dedup check), finish it, or hit an
error (`return err`, which ends the receive loop). -/
inductive BodyOutcome where
  | skipped
  | done
  | errored (e : String)
deriving DecidableEq

/-- Outcome of one iteration of the offline worker's receive loop; a
failed `audio.Save` calls `log.Fatalf`, killing the whole process. -/
inductive OfflineOutcome where
  | skipped
  | done
  | errored (e : String)
  | fatalExit (e : String)
deriving DecidableEq

/-- `SPEECH_SYNTHESIZE_RETRY_CNT` (main.go line 217). -/
def SPEECH_SYNTHESIZE_RETRY_CNT : Nat := 5

/-- The retry loop body for one chunk (main.go lines 390–408), written
with the remaining iteration count as fuel (`fuel + i = 5` at the top
call).  `call a` is the backend response to attempt `a`; `lastErr` is
Go's `err` variable entering the iteration.  Returns the bytes appended
to `audioContent` (none, when every attempt yields an empty payload)
or the error left in `err` when the loop exhausts, together with the
number of one-second sleeps taken. -/
def synthRetryGo (call : Nat → Except String (List Nat)) :
    Nat → Nat → Option String → Except String (List Nat) × Nat
  | 0, _, none => (.ok [], 0)
  | 0, _, some e => (.error e, 0)
  | fuel + 1, i, _ =>
    let sleepHere := if 0 < i then 1 else 0
    match call i with
    | .error e =>
      let r := synthRetryGo call fuel (i + 1) (some e)
      (r.1, sleepHere + r.2)
    | .ok bytes =>
      if 0 < bytes.length then (.ok bytes, sleepHere)
      else
        let r := synthRetryGo call fuel (i + 1) none
        (r.1, sleepHere + r.2)

/-- The full retry loop for one chunk: up to
`SPEECH_SYNTHESIZE_RETRY_CNT` attempts starting at `i = 0` with `err =
nil`. -/
def synthChunk (call : Nat → Except String (List Nat)) :
    Except String (List Nat) × Nat :=
  synthRetryGo call SPEECH_SYNTHESIZE_RETRY_CNT 0 none

/-- The per-chunk loop of `processSpeechGeneration` (main.go lines
389–412): chunks are synthesized in order, their audio appended to the
accumulator; the first chunk whose retries end with a non-nil `err`
aborts the item with that error. -/
def synthChunks (backend : String → Nat → Except String (List Nat)) :
    List String → Except String (List Nat) × Nat
  | [] => (.ok [], 0)
  | c :: rest =>
    match synthChunk (backend c) with
    | (.error e, s) => (.error e, s)
    | (.ok b, s) =>
      match synthChunks backend rest with
      | (.error e, s2) => (.error e, s + s2)
      | (.ok bs, s2) => (.ok (b ++ bs), s + s2)

/-- Go `fileExistsAndLog(path)` (main.go lines 294–300): an `os.Stat`
existence probe (the log line is not modelled). -/
def fileExistsAndLog (ex : String → Bool) (path : String) : Bool := ex path

/-- The dedup gate of the remote worker (main.go lines 379–384): skip
when the legacy sanitized-title path or the hashed artifact path exists. -/
def shouldSkipRemote (ex : String → Bool) (cwd directory title : String) : Bool :=
  fileExistsAndLog ex (legacyFilePath cwd title) ||
    fileExistsAndLog ex (remoteFilePath cwd directory title)

/-- The dedup gate of the offline worker (main.go lines 314–319). -/
def shouldSkipOffline (ex : String → Bool) (cwd directory title : String) : Bool :=
  fileExistsAndLog ex (legacyFilePath cwd title) ||
    fileExistsAndLog ex (offlineFilePath cwd directory title)

/-- The `fileTime` closure shared by both workers (main.go lines 345–353
and 421–429): the item's update time if parsed, else its publish time if
parsed, else `time.Now()`. -/
def itemFileTime (now : Int) (item : Item) : Int :=
  match item.updatedParsed with
  | some t => t
  | none =>
    match item.publishedParsed with
    | some t => t
    | none => now

/-- The tail of the remote worker's loop body after synthesis succeeded
(main.go lines 414–434): `os.WriteFile(filePath, audioContent, 0o755)`,
then `tool.WriteID3Tag`, then `os.Chtimes` with the item file time; a
failing write or `Chtimes` returns its error out of the worker. -/
def finalizeRemote (env : FsEnv) (filePath title directory : String)
    (fileTime : Int) (audioContent : List Nat) (sleeps : Nat) :
    BodyOutcome × Effects :=
  match env.writeFile filePath audioContent with
  | some e => (.errored e, { Effects.empty with sleeps := sleeps })
  | none =>
    match env.chtimesErr filePath with
    | some e =>
      (.errored e,
        { sleeps := sleeps, writes := [(filePath, audioContent, some 0o755)],
          id3 := [(filePath, title, directory)], chtimes := [] })
    | none =>
      (.done,
        { sleeps := sleeps, writes := [(filePath, audioContent, some 0o755)],
          id3 := [(filePath, title, directory)],
          chtimes := [(filePath, fileTime)] })

/-- One iteration of the remote worker's receive loop
(`processSpeechGeneration`, main.go lines 370–437) on one dequeued
request.  `getRequests` is the external chunker
`rss.GetSynthesizeSpeechRequests(item, lang, natural, speed)`,
abstracted by the chunk payloads it produces; `backend c a` is the
backend's response to attempt `a` on chunk `c`. -/
def processSpeechGenerationBody (env : FsEnv) (cwd : String) (now : Int)
    (getRequests : Item → String → Bool → ℚ → List String)
    (backend : String → Nat → Except String (List Nat))
    (workerItem : WorkerRequest) : BodyOutcome × Effects :=
  let feedItem := workerItem.item
  let filePath := remoteFilePath cwd workerItem.directory feedItem.title
  if shouldSkipRemote env.fileExists cwd workerItem.directory feedItem.title then
    (.skipped, Effects.empty)
  else
    match synthChunks backend
        (getRequests feedItem workerItem.languageCode
          workerItem.useNaturalVoice workerItem.speechSpeed) with
    | (.error e, s) => (.errored e, { Effects.empty with sleeps := s })
    | (.ok audioContent, s) =>
      finalizeRemote env filePath feedItem.title workerItem.directory
        (itemFileTime now feedItem) audioContent s

/-- The remote worker's receive loop (`processSpeechGeneration`, main.go
lines 367–440) draining its share of the queue, given as a list: on
`.errored e` the function returns `err` (ending the loop — the remaining
requests are left to other workers), otherwise it continues with the
next request. -/
def processSpeechGeneration (env : FsEnv) (cwd : String) (now : Int)
    (getRequests : Item → String → Bool → ℚ → List String)
    (backend : String → Nat → Except String (List Nat)) :
    List WorkerRequest → Except String Unit × Effects
  | [] => (.ok (), Effects.empty)
  | r :: rest =>
    match processSpeechGenerationBody env cwd now getRequests backend r with
    | (.errored e, eff) => (.error e, eff)
    | (.skipped, eff) =>
      let k := processSpeechGeneration env cwd now getRequests backend rest
      (k.1, Effects.append eff k.2)
    | (.done, eff) =>
      let k := processSpeechGeneration env cwd now getRequests backend rest
      (k.1, Effects.append eff k.2)

/-- One iteration of the offline worker's receive loop
(`processSpeechGenerationOffline`, main.go lines 305–361).
`stripHtmlTags` is the external `tool.StripHtmlTags`; `inChineseRange c`
is `unicode.In(c, tool.CHINESE_UNICODE_RANGE...)`; `generate useZh
content sid speed` is `(*clients.Zh or *clients.En).Generate(content,
sid, speed)`; `save path audio` is `audio.Save(path)`, whose failure is
`log.Fatalf` — a process exit. -/
def processSpeechGenerationOfflineBody (env : FsEnv) (cwd : String) (now : Int)
    (stripHtmlTags : String → String) (inChineseRange : Char → Bool)
    (generate : Bool → String → Nat → ℚ → List Nat)
    (save : String → List Nat → Bool)
    (workerItem : WorkerRequest) : OfflineOutcome × Effects :=
  let feedItem := workerItem.item
  let filePath := offlineFilePath cwd workerItem.directory feedItem.title
  if shouldSkipOffline env.fileExists cwd workerItem.directory feedItem.title then
    (.skipped, Effects.empty)
  else
    let content := feedItem.title ++ "\n\n" ++
      (if 0 < feedItem.content.length then stripHtmlTags feedItem.content
       else if 0 < feedItem.description.length then
         stripHtmlTags feedItem.description
       else "")
    let useZh := feedItem.title.data.any inChineseRange
    let audio := generate useZh content 1 (4 / 5 : ℚ)
    if save filePath audio then
      match env.chtimesErr filePath with
      | some e =>
        (.errored e, { Effects.empty with writes := [(filePath, audio, none)] })
      | none =>
        (.done,
          { sleeps := 0, writes := [(filePath, audio, none)], id3 := [],
            chtimes := [(filePath, itemFileTime now feedItem)] })
    else
      (.fatalExit ("Failed to write " ++ filePath), Effects.empty)

/-! Concrete fixtures used to instantiate the theorems below. -/

/-- A filesystem where nothing exists and every write and `Chtimes`
succeeds. -/
def fsEnvAllOk : FsEnv := ⟨fun _ => false, fun _ _ => none, fun _ => none⟩

/-- A sample item with both timestamps parsed. -/
def itemT : Item := ⟨"t", "", "", some 1, some 2⟩

/-- A sample request for `itemT`. -/
def reqT : WorkerRequest := ⟨itemT, "/d", "en", false, 1⟩

/-- A chunker that yields a single chunk `"x"` for every item. -/
def oneChunk : Item → String → Bool → ℚ → List String := fun _ _ _ _ => ["x"]

/-- A backend that always succeeds with one byte. -/
def backendOk7 : String → Nat → Except String (List Nat) := fun _ _ => .ok [7]

/-- A backend that fails every attempt. -/
def backendFail : String → Nat → Except String (List Nat) := fun _ _ => .error "boom"

/-- A backend that fails attempts 0–3 and succeeds on attempt 4. -/
def backendFail4 : String → Nat → Except String (List Nat) :=
  fun _ a => if a < 4 then .error "boom" else .ok [7]

/-- An item whose synthesis will fail. -/
def itemBad : Item := ⟨"bad", "", "", some 1, some 2⟩

/-- An item whose synthesis would succeed. -/
def itemGood : Item := ⟨"good", "", "", some 1, some 2⟩

/-- Queued request for `itemBad`. -/
def reqBad : WorkerRequest := ⟨itemBad, "/d", "en", false, 1⟩

/-- Queued request for `itemGood`. -/
def reqGood : WorkerRequest := ⟨itemGood, "/d", "en", false, 1⟩

/-- A chunker yielding the item title as the only chunk. -/
def titleChunk : Item → String → Bool → ℚ → List String := fun it _ _ _ => [it.title]

/-- A backend failing exactly on the `"bad"` item's chunk. -/
def backendByTitle : String → Nat → Except String (List Nat) :=
  fun c _ => if c = "good" then .ok [9] else .error "boom"

/-- A chunker producing three chunks. -/
def threeChunks : Item → String → Bool → ℚ → List String :=
  fun _ _ _ _ => ["a", "b", "c"]

/-- Distinct audio bytes per chunk. -/
def bytesFor : String → List Nat :=
  fun c => if c = "a" then [1] else if c = "b" then [2, 2] else [3]

/-- A backend answering each chunk with `bytesFor` at once. -/
def backendABC : String → Nat → Except String (List Nat) :=
  fun c _ => .ok (bytesFor c)

/-- A filesystem on which exactly the legacy-named file *inside the
output directory* `/out` exists. -/
def existsLegacyUnderDir : String → Bool := fun p => p == "/out/t.mp3"

/-- A sample configuration: cap 5 items, 48-hour window. -/
def cfgStd : Config := ⟨5, 48, false, 1⟩

/-- An item published one hour before `now = 100`. -/
def itemRecent : Item := ⟨"recent", "", "", some 99, none⟩

/-- An item published 90 hours before `now = 100`. -/
def itemOld : Item := ⟨"old", "", "", some 10, none⟩

/-- A feed with one recent and one stale item. -/
def feedRO : Feed := ⟨"f", "en", [itemRecent, itemOld]⟩

/-- An item whose publish timestamp failed to parse (nil pointer). -/
def itemNoPub : Item := ⟨"nopub", "", "", none, none⟩

/-- A feed containing an item without a publish timestamp. -/
def feedNil : Feed := ⟨"f", "en", [itemNoPub]⟩

/-- A feed with a Chinese language tag in mixed case. -/
def feedZh : Feed := ⟨"f", "ZH-cn", [itemRecent]⟩

/-- An offline `Save` that always succeeds. -/
def saveOk : String → List Nat → Bool := fun _ _ => true

/-- An offline generator producing a fixed buffer. -/
def genFive : Bool → String → Nat → ℚ → List Nat := fun _ _ _ _ => [5]

/-- An HTML stripper that leaves text unchanged. -/
def stripId : String → String := fun s => s

/-- A script test that never fires. -/
def noChinese : Char → Bool := fun _ => false

/-! Helper lemmas about the retry loop and chunk accumulation. -/

/-- A chunk whose backend fails on attempts 0–3 and answers attempt 4
with `b` finishes with `b` appended and four one-second sleeps taken. -/
theorem synthChunk_fail4_succ (call : Nat → Except String (List Nat))
    (e : Nat → String) (b : List Nat)
    (h04 : ∀ a, a < 4 → call a = .error (e a)) (h4 : call 4 = .ok b) :
    synthChunk call = (.ok b, 4) := by
  have h0 := h04 0 (by omega); have h1 := h04 1 (by omega)
  have h2 := h04 2 (by omega); have h3 := h04 3 (by omega)
  rcases b with _ | ⟨x, xs⟩ <;>
    simp [synthChunk, SPEECH_SYNTHESIZE_RETRY_CNT, synthRetryGo, h0, h1, h2, h3, h4]

/-- A chunk whose backend fails all five attempts ends with the error of
the final attempt after four one-second sleeps. -/
theorem synthChunk_fail5 (call : Nat → Except String (List Nat))
    (e : Nat → String) (h : ∀ a, a < 5 → call a = .error (e a)) :
    synthChunk call = (.error (e 4), 4) := by
  have h0 := h 0 (by omega); have h1 := h 1 (by omega)
  have h2 := h 2 (by omega); have h3 := h 3 (by omega)
  have h4 := h 4 (by omega)
  simp [synthChunk, SPEECH_SYNTHESIZE_RETRY_CNT, synthRetryGo, h0, h1, h2, h3, h4]

/-- A chunk whose backend answers every attempt with `.ok b` contributes
exactly `b` (an empty payload is retried to exhaustion but leaves no
error and appends nothing). -/
theorem synthChunk_allOk (call : Nat → Except String (List Nat))
    (b : List Nat) (h : ∀ a, call a = .ok b) :
    synthChunk call = (.ok b, if b.isEmpty then 4 else 0) := by
  have h0 := h 0; have h1 := h 1; have h2 := h 2; have h3 := h 3; have h4 := h 4
  rcases b with _ | ⟨x, xs⟩ <;>
    simp [synthChunk, SPEECH_SYNTHESIZE_RETRY_CNT, synthRetryGo, h0, h1, h2, h3, h4]

/-- Chunk accumulation when every chunk retries four times and then
succeeds: the results are concatenated in order. -/
theorem synthChunks_all4 (backend : String → Nat → Except String (List Nat))
    (B : String → List Nat) :
    ∀ chunks : List String,
      (∀ c ∈ chunks, synthChunk (backend c) = (.ok (B c), 4)) →
      synthChunks backend chunks = (.ok ((chunks.map B).flatten), 4 * chunks.length)
  | [], _ => by simp [synthChunks]
  | c :: rest, h => by
    have hc := h c (by simp)
    have ih := synthChunks_all4 backend B rest (fun x hx => h x (by simp [hx]))
    simp only [synthChunks, hc, ih, List.map_cons, List.flatten_cons, List.length_cons]
    rw [Prod.mk.injEq]
    exact ⟨rfl, by omega⟩

/-- Chunk accumulation when every chunk eventually contributes its
bytes: the results are concatenated in order (sleep count existential). -/
theorem synthChunks_allOk_ex (backend : String → Nat → Except String (List Nat))
    (B : String → List Nat) :
    ∀ chunks : List String,
      (∀ c ∈ chunks, ∃ s, synthChunk (backend c) = (.ok (B c), s)) →
      ∃ s, synthChunks backend chunks = (.ok ((chunks.map B).flatten), s)
  | [], _ => ⟨0, by simp [synthChunks]⟩
  | c :: rest, h => by
    obtain ⟨s, hc⟩ := h c (by simp)
    obtain ⟨s2, ih⟩ := synthChunks_allOk_ex backend B rest (fun x hx => h x (by simp [hx]))
    exact ⟨s + s2, by simp only [synthChunks, hc, ih, List.map_cons, List.flatten_cons]⟩

/-- A first chunk that exhausts its retries aborts the whole item with
that error. -/
theorem synthChunks_consErr (backend : String → Nat → Except String (List Nat))
    (c : String) (rest : List String) (e : String) (s : Nat)
    (h : synthChunk (backend c) = (.error e, s)) :
    synthChunks backend (c :: rest) = (.error e, s) := by
  simp only [synthChunks, h]

/-- C1.  For every text chunk of an item in the remote synthesis path
the backend call is retried up to `SPEECH_SYNTHESIZE_RETRY_CNT = 5`
attempts in total, with a one-second sleep before each retry: when every
chunk fails its first four attempts and succeeds on the fifth, the item
finishes with outcome `.done` — no error surfaced — one write of the
concatenated audio at the artifact path, and four one-second sleeps per
chunk; when the first chunk fails all five attempts, the item ends in
the terminal error of the last attempt after four sleeps and no file is
written at the item's artifact path. -/
theorem c1_retry_bound (env : FsEnv) (cwd : String) (now : Int)
    (getRequests : Item → String → Bool → ℚ → List String)
    (backendA backendB : String → Nat → Except String (List Nat))
    (eA : String → Nat → String) (B : String → List Nat) (eB : Nat → String)
    (workerItem : WorkerRequest) (c0 : String) (rest : List String)
    (hex : ∀ p, env.fileExists p = false)
    (hw : ∀ p c, env.writeFile p c = none)
    (hc : ∀ p, env.chtimesErr p = none)
    (hA1 : ∀ c a, a < 4 → backendA c a = .error (eA c a))
    (hA2 : ∀ c, backendA c 4 = .ok (B c))
    (hch : getRequests workerItem.item workerItem.languageCode
        workerItem.useNaturalVoice workerItem.speechSpeed = c0 :: rest)
    (hB1 : ∀ a, a < 5 → backendB c0 a = .error (eB a)) :
    processSpeechGenerationBody env cwd now getRequests backendA workerItem =
      (.done,
        ⟨4 * (c0 :: rest).length,
         [(remoteFilePath cwd workerItem.directory workerItem.item.title,
           ((c0 :: rest).map B).flatten, some 0o755)],
         [(remoteFilePath cwd workerItem.directory workerItem.item.title,
           workerItem.item.title, workerItem.directory)],
         [(remoteFilePath cwd workerItem.directory workerItem.item.title,
           itemFileTime now workerItem.item)]⟩) ∧
    processSpeechGenerationBody env cwd now getRequests backendB workerItem =
      (.errored (eB 4), ⟨4, [], [], []⟩) := by
  have hskip : shouldSkipRemote env.fileExists cwd workerItem.directory
      workerItem.item.title = false := by
    simp [shouldSkipRemote, fileExistsAndLog, hex]
  constructor
  · have hA : ∀ c ∈ (c0 :: rest), synthChunk (backendA c) = (.ok (B c), 4) :=
      fun c _ => synthChunk_fail4_succ (backendA c) (eA c) (B c) (hA1 c) (hA2 c)
    have hAs := synthChunks_all4 backendA B (c0 :: rest) hA
    simp only [processSpeechGenerationBody, hskip, hch, hAs, Bool.false_eq_true,
      if_false, finalizeRemote, hw, hc]
  · have hB := synthChunk_fail5 (backendB c0) eB hB1
    have hBs := synthChunks_consErr backendB c0 rest (eB 4) 4 hB
    simp only [processSpeechGenerationBody, hskip, hch, hBs, Bool.false_eq_true,
      if_false]
    rfl

/-- Witness for C1 at a concrete item, environment and backends. -/
theorem c1_retry_bound_witness :
    processSpeechGenerationBody fsEnvAllOk "/w" 0 oneChunk backendFail4 reqT =
      (.done,
        ⟨4, [("/d/74d41d8cd98f00b204e9800998ecf8427e.mp3", [7], some 0o755)],
         [("/d/74d41d8cd98f00b204e9800998ecf8427e.mp3", "t", "/d")],
         [("/d/74d41d8cd98f00b204e9800998ecf8427e.mp3", 2)]⟩) ∧
    processSpeechGenerationBody fsEnvAllOk "/w" 0 oneChunk backendFail reqT =
      (.errored "boom", ⟨4, [], [], []⟩) := by
  exact c1_retry_bound fsEnvAllOk "/w" 0 oneChunk backendFail4 backendFail
      (fun _ _ => "boom") (fun _ => [7]) (fun _ => "boom") reqT "x" []
      (fun _ => rfl) (fun _ _ => rfl) (fun _ => rfl)
      (fun c a ha => by simp [backendFail4, ha])
      (fun c => by simp [backendFail4])
      rfl (fun a _ => rfl)

/-- C2 (counterexample).  With two queued requests where the first hits
a terminal synthesis error and the second would synthesize fine (shown
by the second conjunct), the worker's receive loop returns the error
after the first item with no effects beyond its retry sleeps: the second
queued item is never processed by this worker, contrary to the claim
that the worker proceeds to its next queued item. -/
theorem c2_item_error_counterexample :
    processSpeechGeneration fsEnvAllOk "/w" 0 titleChunk backendByTitle
        [reqBad, reqGood] = (.error "boom", ⟨4, [], [], []⟩) ∧
    (processSpeechGenerationBody fsEnvAllOk "/w" 0 titleChunk backendByTitle
        reqGood).1 = .done := by
  exact ⟨rfl, rfl⟩

/-- C2 (amended).  A terminal item error makes the worker return that
error and exit its receive loop: after any prefix of requests that do
not error, a request whose processing ends in `.errored e` makes the
loop return `e`, and the accumulated effects are exactly those of the
prefix and of the failing item — none of the remaining queued requests
is processed by this worker (they are left to sibling workers, so the
pool and other workers are unaffected). -/
theorem c2_worker_stops_on_error (env : FsEnv) (cwd : String) (now : Int)
    (getRequests : Item → String → Bool → ℚ → List String)
    (backend : String → Nat → Except String (List Nat))
    (pre : List WorkerRequest) (r : WorkerRequest) (rest : List WorkerRequest)
    (e : String) (eff : Effects)
    (hpre : ∀ x ∈ pre, ∀ e2 : String,
      (processSpeechGenerationBody env cwd now getRequests backend x).1 ≠ .errored e2)
    (hr : processSpeechGenerationBody env cwd now getRequests backend r =
      (.errored e, eff)) :
    processSpeechGeneration env cwd now getRequests backend (pre ++ r :: rest) =
      (.error e,
        pre.foldr
          (fun x acc =>
            Effects.append
              (processSpeechGenerationBody env cwd now getRequests backend x).2 acc)
          eff) := by
  induction pre with
  | nil => simp only [List.nil_append, processSpeechGeneration, hr, List.foldr_nil]
  | cons x pre ih =>
    have hx := hpre x (by simp)
    have ih2 := ih (fun y hy => hpre y (by simp [hy]))
    rcases ho : processSpeechGenerationBody env cwd now getRequests backend x with ⟨o, effx⟩
    cases o with
    | errored e2 => exact absurd (congrArg Prod.fst ho) (hx e2)
    | skipped =>
      simp only [List.cons_append, processSpeechGeneration, ho, List.append_eq, ih2,
        List.foldr_cons]
    | done =>
      simp only [List.cons_append, processSpeechGeneration, ho, List.append_eq, ih2,
        List.foldr_cons]

/-- Witness for the amended C2 with an empty prefix and one remaining
queued request. -/
theorem c2_worker_stops_on_error_witness :
    processSpeechGeneration fsEnvAllOk "/w" 0 titleChunk backendByTitle
      [reqBad, reqGood] = (.error "boom", ⟨4, [], [], []⟩) := by
  exact c2_worker_stops_on_error fsEnvAllOk "/w" 0 titleChunk backendByTitle
    [] reqBad [reqGood] "boom" ⟨4, [], [], []⟩
    (fun x hx => absurd hx (List.not_mem_nil x)) rfl

/-- C3 (code evaluation).  The identifier actually computed by the code
is not a fixed-length hex digest of the title: `md5.New().Sum(title)`
appends the empty-message digest to the raw title bytes, so the
identifier of `"a"` is the hex of `"a"` followed by the constant
`md5("")` digest (34 characters, while the empty title yields 32), and
the two distinct 26-character titles `"aaaaaaaaaaaaaaaaaaaaaaaaab"` and
`"aaaaaaaaaaaaaaaaaaaaaaaaac"` receive the same identifier after the
50-character truncation.  The filename is this identifier plus `.mp3`
(remote) or `.wav` (local). -/
theorem c3_identifier_eval :
    hashStringOf "a" = "61d41d8cd98f00b204e9800998ecf8427e" ∧
    (hashStringOf "a").length = 34 ∧ (hashStringOf "").length = 32 ∧
    hashStringOf (String.mk (List.replicate 25 'a' ++ ['b'])) =
      hashStringOf (String.mk (List.replicate 25 'a' ++ ['c'])) ∧
    String.mk (List.replicate 25 'a' ++ ['b']) ≠
      String.mk (List.replicate 25 'a' ++ ['c']) ∧
    remoteFilePath "/w" "/d" "a" = "/d/61d41d8cd98f00b204e9800998ecf8427e.mp3" ∧
    offlineFilePath "/w" "/d" "a" = "/d/61d41d8cd98f00b204e9800998ecf8427e.wav" := by
  refine ⟨rfl, rfl, rfl, rfl, ?_, rfl, rfl⟩
  decide

/-- The finalizer never yields the `.skipped` outcome. -/
theorem finalizeRemote_fst_ne_skipped (env : FsEnv)
    (filePath title directory : String) (fileTime : Int)
    (audioContent : List Nat) (sleeps : Nat) :
    (finalizeRemote env filePath title directory fileTime audioContent
      sleeps).1 ≠ .skipped := by
  unfold finalizeRemote
  rcases env.writeFile filePath audioContent with _ | e
  · rcases env.chtimesErr filePath with _ | e2 <;> simp
  · simp

/-- C4 (counterexample).  On a filesystem where exactly the legacy
sanitized-title file *inside the output directory* (`/out/t.mp3`)
exists, the dedup check returns `false` — it does not skip — because it
resolves the legacy path against the process working directory (`/cwd`)
instead of the output directory, refuting the claimed if-and-only-if. -/
theorem c4_dedup_counterexample :
    shouldSkipRemote existsLegacyUnderDir "/cwd" "/out" "t" = false ∧
    existsLegacyUnderDir ("/out/" ++ sanitizeTitle "t" ++ ".mp3") = true := by
  exact ⟨rfl, rfl⟩

/-- C4 (amended).  The worker skips an item if and only if the hashed
artifact path under the output directory exists or the legacy
sanitized-title path resolved against the process working directory
(not the output directory) exists. -/
theorem c4_skip_iff (env : FsEnv) (cwd : String) (now : Int)
    (getRequests : Item → String → Bool → ℚ → List String)
    (backend : String → Nat → Except String (List Nat))
    (workerItem : WorkerRequest) :
    (processSpeechGenerationBody env cwd now getRequests backend workerItem).1 =
        .skipped ↔
      (env.fileExists (legacyFilePath cwd workerItem.item.title) ||
        env.fileExists
          (remoteFilePath cwd workerItem.directory workerItem.item.title)) = true := by
  simp only [processSpeechGenerationBody]
  cases h : shouldSkipRemote env.fileExists cwd workerItem.directory
      workerItem.item.title
  case true =>
    have h2 := h
    simp only [shouldSkipRemote, fileExistsAndLog] at h2
    simp [h, h2]
  case false =>
    have h2 := h
    simp only [shouldSkipRemote, fileExistsAndLog] at h2
    simp only [h, Bool.false_eq_true, if_false, h2, iff_false]
    rcases hsc : synthChunks backend
        (getRequests workerItem.item workerItem.languageCode
          workerItem.useNaturalVoice workerItem.speechSpeed) with ⟨res, s⟩
    rcases res with e | audioContent
    · simp
    · exact finalizeRemote_fst_ne_skipped env _ _ _ _ _ _

/-- C5.  When every chunk of an item synthesizes (each backend response
carries that chunk's bytes), the item finishes with outcome `.done` and
the worker performs exactly one write, at the item's artifact path, whose
content is the order-preserving concatenation of the chunk byte
sequences — the write happens only after all chunks have been
accumulated. -/
theorem c5_chunk_concat (env : FsEnv) (cwd : String) (now : Int)
    (getRequests : Item → String → Bool → ℚ → List String)
    (backend : String → Nat → Except String (List Nat))
    (B : String → List Nat) (workerItem : WorkerRequest)
    (hex : ∀ p, env.fileExists p = false)
    (hw : ∀ p c, env.writeFile p c = none)
    (hc : ∀ p, env.chtimesErr p = none)
    (hb : ∀ c a, backend c a = .ok (B c)) :
    (processSpeechGenerationBody env cwd now getRequests backend workerItem).1 =
      .done ∧
    (processSpeechGenerationBody env cwd now getRequests backend
        workerItem).2.writes =
      [(remoteFilePath cwd workerItem.directory workerItem.item.title,
        ((getRequests workerItem.item workerItem.languageCode
            workerItem.useNaturalVoice workerItem.speechSpeed).map B).flatten,
        some 0o755)] := by
  have hskip : shouldSkipRemote env.fileExists cwd workerItem.directory
      workerItem.item.title = false := by
    simp [shouldSkipRemote, fileExistsAndLog, hex]
  obtain ⟨s, hs⟩ := synthChunks_allOk_ex backend B
    (getRequests workerItem.item workerItem.languageCode
      workerItem.useNaturalVoice workerItem.speechSpeed)
    (fun c _ => ⟨_, synthChunk_allOk (backend c) (B c) (hb c)⟩)
  constructor <;>
    simp only [processSpeechGenerationBody, hskip, Bool.false_eq_true, if_false,
      hs, finalizeRemote, hw, hc]

/-- Witness for C5: three chunks returning `[1]`, `[2, 2]`, `[3]` yield
one write with content `[1, 2, 2, 3]`. -/
theorem c5_chunk_concat_witness :
    (processSpeechGenerationBody fsEnvAllOk "/w" 0 threeChunks backendABC
      reqT).1 = .done ∧
    (processSpeechGenerationBody fsEnvAllOk "/w" 0 threeChunks backendABC
        reqT).2.writes =
      [("/d/74d41d8cd98f00b204e9800998ecf8427e.mp3", [1, 2, 2, 3], some 0o755)] := by
  exact c5_chunk_concat fsEnvAllOk "/w" 0 threeChunks backendABC bytesFor reqT
    (fun _ => rfl) (fun _ _ => rfl) (fun _ => rfl) (fun _ _ => rfl)

/-- The `fileTime` closure agrees with the update-else-publish-else-now
policy stated as one simultaneous match. -/
theorem itemFileTime_eq_match (now : Int) (it : Item) :
    itemFileTime now it =
      (match it.updatedParsed, it.publishedParsed with
       | some t1, _ => t1
       | none, some t2 => t2
       | none, none => now) := by
  cases hu : it.updatedParsed <;> cases hp : it.publishedParsed <;>
    simp [itemFileTime, hu, hp]

/-- C6.  When an item's synthesis succeeds, both worker variants call
`Chtimes` on the output file exactly once, with the item's update time
when parsed, else its publish time when parsed, else the current time —
used for both the access and the modification time. -/
theorem c6_timestamp_policy (env : FsEnv) (cwd : String) (now : Int)
    (getRequests : Item → String → Bool → ℚ → List String)
    (backend : String → Nat → Except String (List Nat)) (B : String → List Nat)
    (stripHtmlTags : String → String) (inChineseRange : Char → Bool)
    (generate : Bool → String → Nat → ℚ → List Nat)
    (save : String → List Nat → Bool) (workerItem : WorkerRequest)
    (hex : ∀ p, env.fileExists p = false)
    (hw : ∀ p c, env.writeFile p c = none)
    (hc : ∀ p, env.chtimesErr p = none)
    (hb : ∀ c a, backend c a = .ok (B c))
    (hs : ∀ p a, save p a = true) :
    ((processSpeechGenerationBody env cwd now getRequests backend workerItem).1 =
        .done ∧
      (processSpeechGenerationBody env cwd now getRequests backend
          workerItem).2.chtimes =
        [(remoteFilePath cwd workerItem.directory workerItem.item.title,
          match workerItem.item.updatedParsed, workerItem.item.publishedParsed with
          | some t1, _ => t1
          | none, some t2 => t2
          | none, none => now)]) ∧
    ((processSpeechGenerationOfflineBody env cwd now stripHtmlTags inChineseRange
        generate save workerItem).1 = .done ∧
      (processSpeechGenerationOfflineBody env cwd now stripHtmlTags inChineseRange
          generate save workerItem).2.chtimes =
        [(offlineFilePath cwd workerItem.directory workerItem.item.title,
          match workerItem.item.updatedParsed, workerItem.item.publishedParsed with
          | some t1, _ => t1
          | none, some t2 => t2
          | none, none => now)]) := by
  rw [← itemFileTime_eq_match now workerItem.item]
  have hskipR : shouldSkipRemote env.fileExists cwd workerItem.directory
      workerItem.item.title = false := by
    simp [shouldSkipRemote, fileExistsAndLog, hex]
  have hskipO : shouldSkipOffline env.fileExists cwd workerItem.directory
      workerItem.item.title = false := by
    simp [shouldSkipOffline, fileExistsAndLog, hex]
  obtain ⟨s, hsyn⟩ := synthChunks_allOk_ex backend B
    (getRequests workerItem.item workerItem.languageCode
      workerItem.useNaturalVoice workerItem.speechSpeed)
    (fun c _ => ⟨_, synthChunk_allOk (backend c) (B c) (hb c)⟩)
  refine ⟨⟨?_, ?_⟩, ?_, ?_⟩ <;>
    simp only [processSpeechGenerationBody, processSpeechGenerationOfflineBody,
      hskipR, hskipO, Bool.false_eq_true, if_false, hsyn, finalizeRemote, hw, hc,
      hs, if_true]

/-- Witness for C6 with both timestamps parsed (`updated = 2`,
`published = 1`): both variants stamp time `2`. -/
theorem c6_timestamp_policy_witness :
    ((processSpeechGenerationBody fsEnvAllOk "/w" 0 oneChunk backendOk7 reqT).1 =
        .done ∧
      (processSpeechGenerationBody fsEnvAllOk "/w" 0 oneChunk backendOk7
          reqT).2.chtimes =
        [("/d/74d41d8cd98f00b204e9800998ecf8427e.mp3", 2)]) ∧
    ((processSpeechGenerationOfflineBody fsEnvAllOk "/w" 0 stripId noChinese
        genFive saveOk reqT).1 = .done ∧
      (processSpeechGenerationOfflineBody fsEnvAllOk "/w" 0 stripId noChinese
          genFive saveOk reqT).2.chtimes =
        [("/d/74d41d8cd98f00b204e9800998ecf8427e.wav", 2)]) := by
  exact c6_timestamp_policy fsEnvAllOk "/w" 0 oneChunk backendOk7 (fun _ => [7])
    stripId noChinese genFive saveOk reqT
    (fun _ => rfl) (fun _ _ => rfl) (fun _ => rfl) (fun _ _ => rfl) (fun _ _ => rfl)

/-- The size clamp is the minimum. -/
theorem itemSizeOf_eq_min (size limit : Nat) : itemSizeOf size limit = min size limit := by
  unfold itemSizeOf
  split <;> omega

/-- The enqueue loop, when every remaining item has a parsed publish
timestamp and the counter can never saturate (as holds for the slice the
code passes in), enqueues exactly one request per in-range item, in
order, and nothing else. -/
theorem createSpeechLoop_ok (now itemSince : Int) (mk : Item → WorkerRequest) :
    ∀ (items : List Item) (itemCnt itemSize : Nat),
      (∀ it ∈ items, it.publishedParsed.isSome) →
      itemCnt + items.length ≤ itemSize →
      createSpeechLoop now itemSince mk itemSize items itemCnt =
        .ok ((items.filter fun it =>
          decide (now - it.publishedParsed.getD 0 ≤ itemSince)).map mk)
  | [], _, _, _, _ => by simp [createSpeechLoop]
  | it :: rest, itemCnt, itemSize, h, hle => by
    obtain ⟨t, ht⟩ := Option.isSome_iff_exists.mp (h it (by simp))
    have hcnt : itemCnt < itemSize := by
      simp only [List.length_cons] at hle
      omega
    have ih := createSpeechLoop_ok now itemSince mk rest (itemCnt + 1) itemSize
      (fun x hx => h x (by simp [hx]))
      (by simp only [List.length_cons] at hle; omega)
    have ih2 := createSpeechLoop_ok now itemSince mk rest itemCnt itemSize
      (fun x hx => h x (by simp [hx]))
      (by simp only [List.length_cons] at hle; omega)
    simp only [createSpeechLoop, isInRange, ht]
    by_cases hr : now - t ≤ itemSince
    · rw [if_pos (show (decide (now - t ≤ itemSince) &&
          decide (itemCnt < itemSize)) = true by
        rw [decide_eq_true hr, decide_eq_true hcnt]; rfl)]
      simp only [ih]
      rw [List.filter_cons,
        if_pos (show decide (now - it.publishedParsed.getD 0 ≤ itemSince) = true by
          rw [ht]; exact decide_eq_true hr)]
      simp only [List.map_cons]
    · rw [if_neg (show ¬(decide (now - t ≤ itemSince) &&
          decide (itemCnt < itemSize)) = true by
        rw [decide_eq_false hr]; simp)]
      rw [ih2, List.filter_cons,
        if_neg (show ¬decide (now - it.publishedParsed.getD 0 ≤ itemSince) = true by
          rw [ht]; exact fun hcon => hr (of_decide_eq_true hcon))]

/-- The enqueue loop hits the nil-pointer panic whenever some remaining
item lacks a parsed publish timestamp. -/
theorem createSpeechLoop_err (now itemSince : Int) (mk : Item → WorkerRequest) :
    ∀ (items : List Item) (itemCnt itemSize : Nat),
      (∃ it ∈ items, it.publishedParsed = none) →
      ∃ e, createSpeechLoop now itemSince mk itemSize items itemCnt = .error e
  | [], _, _, h => by simp at h
  | it :: rest, itemCnt, itemSize, h => by
    rcases hpub : it.publishedParsed with _ | t
    · exact ⟨"runtime error: invalid memory address or nil pointer dereference",
        by simp [createSpeechLoop, isInRange, hpub]⟩
    · have hrest : ∃ x ∈ rest, x.publishedParsed = none := by
        obtain ⟨x, hx, hxn⟩ := h
        rcases List.mem_cons.mp hx with rfl | hx2
        · rw [hpub] at hxn
          cases hxn
        · exact ⟨x, hx2, hxn⟩
      obtain ⟨e1, h1⟩ := createSpeechLoop_err now itemSince mk rest (itemCnt + 1)
        itemSize hrest
      obtain ⟨e2, h2⟩ := createSpeechLoop_err now itemSince mk rest itemCnt
        itemSize hrest
      simp only [createSpeechLoop, isInRange, hpub]
      by_cases hcond :
          (decide (now - t ≤ itemSince) && decide (itemCnt < itemSize)) = true
      · rw [if_pos hcond]
        exact ⟨e1, by rw [h1]⟩
      · rw [if_neg hcond]
        exact ⟨e2, h2⟩

/-- Every request the enqueue loop emits was built by `mk` from some
item. -/
theorem createSpeechLoop_mem (now itemSince : Int) (mk : Item → WorkerRequest) :
    ∀ (items : List Item) (itemCnt itemSize : Nat) (l : List WorkerRequest),
      createSpeechLoop now itemSince mk itemSize items itemCnt = .ok l →
      ∀ r ∈ l, ∃ it, r = mk it
  | [], _, _, l, h => by
    simp only [createSpeechLoop, Except.ok.injEq] at h
    subst h
    intro r hr
    simp at hr
  | it :: rest, itemCnt, itemSize, l, h => by
    simp only [createSpeechLoop] at h
    rcases hpub : it.publishedParsed with _ | t
    · simp only [isInRange, hpub] at h
      exact Except.noConfusion h
    · simp only [isInRange, hpub] at h
      by_cases hcond :
          (decide (now - t ≤ itemSince) && decide (itemCnt < itemSize)) = true
      · rw [if_pos hcond] at h
        rcases hrec : createSpeechLoop now itemSince mk itemSize rest (itemCnt + 1)
            with e | l2
        · rw [hrec] at h
          simp at h
        · rw [hrec] at h
          simp only [Except.ok.injEq] at h
          subst h
          intro r hr
          rcases List.mem_cons.mp hr with rfl | hr2
          · exact ⟨it, rfl⟩
          · exact createSpeechLoop_mem now itemSince mk rest (itemCnt + 1) itemSize
              l2 hrec r hr2
      · rw [if_neg hcond] at h
        exact createSpeechLoop_mem now itemSince mk rest itemCnt itemSize l h

/-- C7.  For a feed whose first `min(len(items), maxItemPerFeed)` items
all carry a parsed publish timestamp, the producer enqueues exactly one
request per considered item satisfying `now - publishedTime ≤ itemSince`,
in feed order, and enqueues nothing for items out of the recency window
or beyond the per-feed cap. -/
theorem c7_producer_filter (now : Int) (cfg : Config) (feed : Feed)
    (directory : String)
    (h : ∀ it ∈ feed.items.take (min feed.items.length cfg.maxItemPerFeed),
      it.publishedParsed.isSome) :
    CreateSpeechFromItems now cfg feed directory =
      .ok (((feed.items.take (min feed.items.length cfg.maxItemPerFeed)).filter
          fun it => decide (now - it.publishedParsed.getD 0 ≤ cfg.itemSince)).map
        (mkWorkerRequest cfg (feedLanguageOf feed.language) directory)) := by
  simp only [CreateSpeechFromItems, itemSizeOf_eq_min]
  exact createSpeechLoop_ok now cfg.itemSince
    (mkWorkerRequest cfg (feedLanguageOf feed.language) directory)
    (feed.items.take (min feed.items.length cfg.maxItemPerFeed)) 0
    (min feed.items.length cfg.maxItemPerFeed) h
    (by simp only [List.length_take, Nat.zero_add]; omega)

/-- Witness for C7: of two items (published 1 hour and 90 hours ago,
48-hour window, cap 5), exactly the recent one is enqueued. -/
theorem c7_producer_filter_witness :
    CreateSpeechFromItems 100 cfgStd feedRO "/d" =
      .ok [mkWorkerRequest cfgStd (feedLanguageOf "en") "/d" itemRecent] := by
  exact c7_producer_filter 100 cfgStd feedRO "/d" (by decide)

/-- C8.  Every request the producer enqueues carries language code
`"cmn-CN"` when the feed's tag contains `"zh"` case-insensitively, and
the feed's tag unchanged otherwise. -/
theorem c8_language_normalization (now : Int) (cfg : Config) (feed : Feed)
    (directory : String) (reqs : List WorkerRequest) (r : WorkerRequest)
    (hok : CreateSpeechFromItems now cfg feed directory = .ok reqs)
    (hr : r ∈ reqs) :
    r.languageCode =
      if goStringsContains (goToLower feed.language) "zh" then "cmn-CN"
      else feed.language := by
  simp only [CreateSpeechFromItems] at hok
  obtain ⟨it, rfl⟩ := createSpeechLoop_mem now cfg.itemSince
    (mkWorkerRequest cfg (feedLanguageOf feed.language) directory) _ _ _ reqs hok r hr
  simp [mkWorkerRequest, feedLanguageOf]

/-- Witness for C8 on the mixed-case tag `"ZH-cn"`. -/
theorem c8_language_normalization_witness :
    (mkWorkerRequest cfgStd (feedLanguageOf "ZH-cn") "/d" itemRecent).languageCode =
      if goStringsContains (goToLower "ZH-cn") "zh" then "cmn-CN" else "ZH-cn" := by
  exact c8_language_normalization 100 cfgStd feedZh "/d"
    [mkWorkerRequest cfgStd (feedLanguageOf "ZH-cn") "/d" itemRecent]
    (mkWorkerRequest cfgStd (feedLanguageOf "ZH-cn") "/d" itemRecent)
    rfl (by simp)

/-- C9 (counterexample).  A successful remote item performs its write
with permission argument `0o755`, whose execute bits (`0o111`) are set —
the artifact is not created with non-executable permissions. -/
theorem c9_executable_counterexample :
    (processSpeechGenerationBody fsEnvAllOk "/w" 0 oneChunk backendOk7
        reqT).2.writes =
      [("/d/74d41d8cd98f00b204e9800998ecf8427e.mp3", [7], some 0o755)] ∧
    0o755 &&& 0o111 = 0o111 ∧ (0o111 : Nat) ≠ 0 := by
  exact ⟨rfl, rfl, by decide⟩

/-- C9 (amended).  Every write the remote worker's finalizer performs
passes permission mode `0o755` to `os.WriteFile` — a mode with execute
bits set. -/
theorem c9_write_mode (env : FsEnv) (cwd : String) (now : Int)
    (getRequests : Item → String → Bool → ℚ → List String)
    (backend : String → Nat → Except String (List Nat))
    (workerItem : WorkerRequest) :
    ∀ w ∈ (processSpeechGenerationBody env cwd now getRequests backend
        workerItem).2.writes,
      w.2.2 = some 0o755 ∧ 0o755 &&& 0o111 ≠ 0 := by
  intro w hw2
  refine ⟨?_, by decide⟩
  simp only [processSpeechGenerationBody] at hw2
  by_cases hsk : shouldSkipRemote env.fileExists cwd workerItem.directory
      workerItem.item.title = true
  · rw [if_pos hsk] at hw2
    simp [Effects.empty] at hw2
  · rw [if_neg hsk] at hw2
    rcases hsc : synthChunks backend
        (getRequests workerItem.item workerItem.languageCode
          workerItem.useNaturalVoice workerItem.speechSpeed) with ⟨res, s⟩
    rw [hsc] at hw2
    rcases res with e | audioContent
    · simp [Effects.empty] at hw2
    · simp only [finalizeRemote] at hw2
      rcases hwf : env.writeFile
          (remoteFilePath cwd workerItem.directory workerItem.item.title)
          audioContent with _ | e2
      · rw [hwf] at hw2
        rcases hct : env.chtimesErr
            (remoteFilePath cwd workerItem.directory workerItem.item.title)
            with _ | e3
        · rw [hct] at hw2
          simp only [List.mem_singleton] at hw2
          subst hw2
          rfl
        · rw [hct] at hw2
          simp only [List.mem_singleton] at hw2
          subst hw2
          rfl
      · rw [hwf] at hw2
        simp [Effects.empty] at hw2

/-- Witness for the amended C9 at a concrete successful run. -/
theorem c9_write_mode_witness :
    (("/d/74d41d8cd98f00b204e9800998ecf8427e.mp3", [7],
        some 0o755) : String × List Nat × Option Nat).2.2 = some 0o755 ∧
      0o755 &&& 0o111 ≠ 0 := by
  exact c9_write_mode fsEnvAllOk "/w" 0 oneChunk backendOk7 reqT
    ("/d/74d41d8cd98f00b204e9800998ecf8427e.mp3", [7], some 0o755) (by decide)

/-- C10.  The producer's recency check dereferences the parsed publish
timestamp unconditionally: whenever one of the first
`min(len(items), maxItemPerFeed)` items has a nil publish timestamp, the
producer panics (surfaced here as the loop's error result), even though
the feed interface treats the timestamp as optional. -/
theorem c10_nil_publish_panics (now : Int) (cfg : Config) (feed : Feed)
    (directory : String) (it : Item)
    (h1 : it ∈ feed.items.take (min feed.items.length cfg.maxItemPerFeed))
    (h2 : it.publishedParsed = none) :
    ∃ e, CreateSpeechFromItems now cfg feed directory = .error e := by
  simp only [CreateSpeechFromItems, itemSizeOf_eq_min]
  exact createSpeechLoop_err now cfg.itemSince
    (mkWorkerRequest cfg (feedLanguageOf feed.language) directory)
    (feed.items.take (min feed.items.length cfg.maxItemPerFeed)) 0
    (min feed.items.length cfg.maxItemPerFeed) ⟨it, h1, h2⟩

/-- Witness for C10 on a one-item feed whose item lacks a publish
timestamp. -/
theorem c10_nil_publish_panics_witness :
    ∃ e, CreateSpeechFromItems 100 cfgStd feedNil "/d" = .error e := by
  exact c10_nil_publish_panics 100 cfgStd feedNil "/d" itemNoPub (by decide) rfl

end Rss2Pod
